import Mathlib

/-!
Shallow embedding of the `awsbs` AWS Signature-Version-4 signer
(`src/sign.rs`, `src/configs.rs`, `src/consts.rs`) in Lean 4, together with
theorems settling the specification claims.

Rust strings are modelled by Lean `String`; where the Rust code operates on
the UTF-8 bytes of a string (hashing, HMAC) we encode the characters to
UTF-8 bytes explicitly (`strBytes`).  Byte sequences are `List Nat` with
every element `< 256`; 32-bit words are `Nat` reduced `% 2^32` at every
operation.  Rust functions that can panic (`unwrap`) are modelled as
`Option`-returning functions, `none` marking the panic.
-/

set_option maxRecDepth 100000

namespace Awsbs

/-- UTF-8 encoding of one Unicode scalar value (`Char`), as its byte list. -/
def utf8Char (c : Char) : List Nat :=
  let n := c.toNat
  if n < 128 then [n]
  else if n < 2048 then [192 + n / 64, 128 + n % 64]
  else if n < 65536 then [224 + n / 4096, 128 + (n / 64) % 64, 128 + n % 64]
  else [240 + n / 262144, 128 + (n / 4096) % 64, 128 + (n / 64) % 64, 128 + n % 64]

/-- The UTF-8 bytes of a string — what Rust's `str::as_bytes` yields. -/
def strBytes (s : String) : List Nat :=
  s.data.foldr (fun c acc => utf8Char c ++ acc) []

/-! ### SHA-256 over byte lists (`sha2::Sha256` in the source) -/

/-- Truncate to a 32-bit word. -/
def w32 (n : Nat) : Nat := n % 4294967296

/-- 32-bit addition. -/
def wadd (a b : Nat) : Nat := (a + b) % 4294967296

/-- 32-bit right rotation by `n`. -/
def rotr (n x : Nat) : Nat :=
  w32 ((x >>> n) ||| (x <<< (32 - n)))

/-- 32-bit complement. -/
def wnot (x : Nat) : Nat := x ^^^ 4294967295

/-- SHA-256 round constants (FIPS 180-4 §4.2.2), as decimal words. -/
def K256 : List Nat :=
  [1116352408, 1899447441, 3049323471, 3921009573, 961987163,
   1508970993, 2453635748, 2870763221, 3624381080, 310598401,
   607225278, 1426881987, 1925078388, 2162078206, 2614888103,
   3248222580, 3835390401, 4022224774, 264347078, 604807628,
   770255983, 1249150122, 1555081692, 1996064986, 2554220882,
   2821834349, 2952996808, 3210313671, 3336571891, 3584528711,
   113926993, 338241895, 666307205, 773529912, 1294757372,
   1396182291, 1695183700, 1986661051, 2177026350, 2456956037,
   2730485921, 2820302411, 3259730800, 3345764771, 3516065817,
   3600352804, 4094571909, 275423344, 430227734, 506948616,
   659060556, 883997877, 958139571, 1322822218, 1537002063,
   1747873779, 1955562222, 2024104815, 2227730452, 2361852424,
   2428436474, 2756734187, 3204031479, 3329325298]

/-- SHA-256 padding: append `0x80`, zeros, and the 64-bit big-endian bit
length, reaching a multiple of 64 bytes. -/
def sha256pad (msg : List Nat) : List Nat :=
  let len := msg.length
  let bitLen := len * 8
  let zeroCount := (64 - (len + 9) % 64) % 64
  msg ++ 0x80 :: List.replicate zeroCount 0 ++
    [bitLen / 2^56 % 256, bitLen / 2^48 % 256, bitLen / 2^40 % 256,
     bitLen / 2^32 % 256, bitLen / 2^24 % 256, bitLen / 2^16 % 256,
     bitLen / 2^8 % 256, bitLen % 256]

/-- Split a list into chunks of 64 (fuel-based structural recursion). -/
def chunks64Aux : Nat → List Nat → List (List Nat)
  | 0, _ => []
  | _, [] => []
  | fuel + 1, l => l.take 64 :: chunks64Aux fuel (l.drop 64)

def chunks64 (l : List Nat) : List (List Nat) := chunks64Aux l.length l

/-- Big-endian 4-byte groups to 32-bit words. -/
def toWords : List Nat → List Nat
  | b0 :: b1 :: b2 :: b3 :: rest => (((b0 * 256 + b1) * 256 + b2) * 256 + b3) :: toWords rest
  | _ => []

/-- Message-schedule extension: `rev` holds the schedule so far, most recent
word first; performs `n` extension steps. -/
def extendSchedule : Nat → List Nat → List Nat
  | 0, rev => rev
  | n + 1, rev =>
    let wtm2 := rev.getD 1 0
    let wtm7 := rev.getD 6 0
    let wtm15 := rev.getD 14 0
    let wtm16 := rev.getD 15 0
    let s0 := rotr 7 wtm15 ^^^ rotr 18 wtm15 ^^^ (wtm15 >>> 3)
    let s1 := rotr 17 wtm2 ^^^ rotr 19 wtm2 ^^^ (wtm2 >>> 10)
    extendSchedule n (wadd (wadd wtm16 s0) (wadd wtm7 s1) :: rev)

/-- The 64-word message schedule of one 64-byte block. -/
def schedule (block : List Nat) : List Nat :=
  (extendSchedule 48 (toWords block).reverse).reverse

/-- SHA-256 working state: the eight 32-bit registers a..h. -/
structure Sha256State where
  a : Nat
  b : Nat
  c : Nat
  d : Nat
  e : Nat
  f : Nat
  g : Nat
  h : Nat

/-- One SHA-256 compression round for round constant `k` and schedule word `w`. -/
def sha256Round (st : Sha256State) (kw : Nat × Nat) : Sha256State :=
  let S1 := rotr 6 st.e ^^^ rotr 11 st.e ^^^ rotr 25 st.e
  let ch := (st.e &&& st.f) ^^^ (wnot st.e &&& st.g)
  let temp1 := wadd (wadd (wadd st.h S1) (wadd ch kw.1)) kw.2
  let S0 := rotr 2 st.a ^^^ rotr 13 st.a ^^^ rotr 22 st.a
  let maj := (st.a &&& st.b) ^^^ (st.a &&& st.c) ^^^ (st.b &&& st.c)
  let temp2 := wadd S0 maj
  ⟨wadd temp1 temp2, st.a, st.b, st.c, wadd st.d temp1, st.e, st.f, st.g⟩

/-- Compress one 64-byte block into the running hash (eight words). -/
def sha256Compress (hs : Sha256State) (block : List Nat) : Sha256State :=
  let w := schedule block
  let f := (K256.zip w).foldl sha256Round hs
  ⟨wadd hs.a f.a, wadd hs.b f.b, wadd hs.c f.c, wadd hs.d f.d,
   wadd hs.e f.e, wadd hs.f f.f, wadd hs.g f.g, wadd hs.h f.h⟩

/-- SHA-256 initial hash value (FIPS 180-4 §5.3.3), as decimal words. -/
def sha256Init : Sha256State :=
  ⟨1779033703, 3144134277, 1013904242, 2773480762,
   1359893119, 2600822924, 528734635, 1541459225⟩

/-- One 32-bit word to 4 big-endian bytes. -/
def wordBytes (x : Nat) : List Nat :=
  [x / 2^24 % 256, x / 2^16 % 256, x / 2^8 % 256, x % 256]

/-- SHA-256 of a byte list: the 32-byte digest. -/
def sha256 (msg : List Nat) : List Nat :=
  let f := (chunks64 (sha256pad msg)).foldl sha256Compress sha256Init
  wordBytes f.a ++ wordBytes f.b ++ wordBytes f.c ++ wordBytes f.d ++
  wordBytes f.e ++ wordBytes f.f ++ wordBytes f.g ++ wordBytes f.h

/-! ### HMAC-SHA256 (`hmac::Hmac<Sha256>` in the source) -/

/-- Pad or shrink an HMAC key to the 64-byte SHA-256 block size. -/
def hmacKeyBlock (key : List Nat) : List Nat :=
  let k := if key.length > 64 then sha256 key else key
  k ++ List.replicate (64 - k.length) 0

/-- HMAC-SHA256 of `msg` under `key`, as the raw 32-byte MAC. -/
def hmacSha256 (key msg : List Nat) : List Nat :=
  let kb := hmacKeyBlock key
  let ipad := kb.map (fun b => b ^^^ 0x36)
  let opad := kb.map (fun b => b ^^^ 0x5c)
  sha256 (opad ++ sha256 (ipad ++ msg))

/-- Lower-case hex digit. -/
def hexDigit (n : Nat) : Char :=
  if n < 10 then Char.ofNat (48 + n) else Char.ofNat (87 + n)

/-- Lower-case hex encoding of a byte list (Rust `format!("{:x}", …)` /
`hex::encode`). -/
def hexBytes (bs : List Nat) : String :=
  ⟨bs.foldr (fun b acc => hexDigit (b / 16) :: hexDigit (b % 16) :: acc) []⟩

/-! ### Constants (`src/consts.rs`) -/

def AMZ_DATE : String := "x-amz-date"
def ALGORITHM : String := "AWS4-HMAC-SHA256"
def SIGNED_HEADERS : String := "content-type;host;x-amz-date"

/-! ### Configuration (`src/configs.rs`, `struct Configuration`) -/

structure Configuration where
  region : String
  key : String
  secret : String
deriving DecidableEq

/-! ### The signer (`src/sign.rs`) -/

/-- The slice of `http::Uri` that `sign.rs` reads: `host()` (optional),
`path()`, `query()` (optional). -/
structure Uri where
  host : Option String
  path : String
  query : Option String
deriving DecidableEq

/-- Rust `str::split` on a single-character pattern, over the character
list: always yields at least one segment, and `""` yields `[""]`. -/
def splitOnChar (c : Char) : List Char → List (List Char)
  | [] => [[]]
  | x :: xs =>
    if x = c then [] :: splitOnChar c xs
    else
      match splitOnChar c xs with
      | [] => [[x]]
      | s :: r => (x :: s) :: r

/-- Rust's byte-wise `<=` on strings, over character lists.  UTF-8 encoding
preserves the order of Unicode scalar values, so byte-wise comparison of the
encodings coincides with this code-point-wise comparison. -/
def charsLE : List Char → List Char → Bool
  | [], _ => true
  | _ :: _, [] => false
  | a :: as, b :: bs => if a < b then true else if b < a then false else charsLE as bs

/-- Rust's derived lexicographic `<=` on `(&str, &str)` pairs: compare the
keys, break ties on the values. -/
def pairLE (p q : List Char × List Char) : Bool :=
  if p.1 = q.1 then charsLE p.2 q.2 else charsLE p.1 q.1

/-- The ordering of `pairLE`, as a decidable relation for sorting. -/
def pairRel (p q : List Char × List Char) : Prop := pairLE p q = true

instance : DecidableRel pairRel := fun p q => instDecidableEqBool (pairLE p q) true

/-- Parse one `key=value` fragment the way `build_canonical_request` does:
`let mut parts = x.split("="); (parts.next().unwrap_or(""), parts.next().unwrap_or(""))`
— the key is the segment before the first `=`, the value is the segment
between the first and second `=` (text after a second `=` is dropped). -/
def parsePair (p : List Char) : List Char × List Char :=
  match splitOnChar '=' p with
  | [] => ([], [])
  | [k] => (k, [])
  | k :: v :: _ => (k, v)

/-- Rust `Vec::join("&")` over character lists. -/
def joinAmp : List (List Char) → List Char
  | [] => []
  | [x] => x
  | x :: y :: rest => x ++ '&' :: joinAmp (y :: rest)

/-- The `canonical_query_string` block of `build_canonical_request`:
`uri.query().unwrap_or("")` split on `&`, each fragment parsed by
`parsePair`, the pairs sorted (`queries.sort()` — a stable sort under the
derived lexicographic order on pairs; `insertionSort` is likewise stable,
and under the antisymmetric total order `pairRel` the sorted list is in any
case unique), rejoined as `key=value` with `&`. -/
def canonicalQueryString (query : Option String) : String :=
  let raw := (query.getD "").data
  let queries := List.insertionSort pairRel ((splitOnChar '&' raw).map parsePair)
  ⟨joinAmp (queries.map (fun kv => kv.1 ++ '=' :: kv.2))⟩

/-- The segments of `splitOnChar` after the first: empty when the separator
does not occur, otherwise the split of what follows its first occurrence. -/
def restSegs (c : Char) (l : List Char) : List (List Char) :=
  match l.dropWhile (fun a => a ≠ c) with
  | [] => []
  | _ :: rest => splitOnChar c rest

/-- Modelled from claim C3's words: the canonical query string in which each
pair's value is kept whole, as everything after the first `=` of the
fragment. -/
def canonicalQueryStringClaim (query : Option String) : String :=
  let raw := (query.getD "").data
  let pairs := (splitOnChar '&' raw).map fun p =>
    (p.takeWhile (fun a => a ≠ '='), (p.dropWhile (fun a => a ≠ '=')).drop 1)
  let queries := List.insertionSort pairRel pairs
  ⟨joinAmp (queries.map (fun kv => kv.1 ++ '=' :: kv.2))⟩

/-- The amended description of the canonical query string: each fragment's
key is the text before the first `=`, its value the text between the first
and the second `=` (a fragment with no `=` yields an empty value, and text
from the second `=` on is dropped); the pairs are sorted lexicographically
by the full (key, value) tuple and rejoined with `&` as `key=value`. -/
def canonicalQueryStringAmended (query : Option String) : String :=
  let raw := (query.getD "").data
  let pairs := (splitOnChar '&' raw).map fun p =>
    (p.takeWhile (fun a => a ≠ '='),
     ((p.dropWhile (fun a => a ≠ '=')).drop 1).takeWhile (fun a => a ≠ '='))
  let queries := List.insertionSort pairRel pairs
  ⟨joinAmp (queries.map (fun kv => kv.1 ++ '=' :: kv.2))⟩

/-- One query pair rendered as the `key=value` fragment of a raw query
string. -/
def seg (kv : String × String) : List Char := kv.1.data ++ '=' :: kv.2.data

/-- A raw query string assembled from an ordered sequence of input pairs,
joined with `&` — the input side of the canonicalization. -/
def joinQueryPairs (l : List (String × String)) : String :=
  ⟨joinAmp (l.map seg)⟩

/-- `internal::build_canonical_request`.  `uri.host().unwrap()` panics when
the URI has no host; that panic is the `none` result. -/
def build_canonical_request (method : String) (uri : Uri) (dt : String)
    (body : List Nat) (content_type : String) : Option String :=
  uri.host.map fun host =>
    let canonical_uri := uri.path
    let canonical_query_string := canonicalQueryString uri.query
    let canonical_headers :=
      "content-type:" ++ content_type ++ "\nhost:" ++ host ++ "\nx-amz-date:" ++ dt ++ "\n"
    let payload_digest := hexBytes (sha256 body)
    method ++ "\n" ++ canonical_uri ++ "\n" ++ canonical_query_string ++ "\n" ++
      canonical_headers ++ "\n" ++ SIGNED_HEADERS ++ "\n" ++ payload_digest

/-- `internal::build_credential_scope`. -/
def build_credential_scope (date region service : String) : String :=
  date ++ "/" ++ region ++ "/" ++ service ++ "/aws4_request"

/-- `internal::create_string_to_sign`. -/
def create_string_to_sign (cr datetime cs : String) : String :=
  let hashed_canonical_request := hexBytes (sha256 (strBytes cr))
  ALGORITHM ++ "\n" ++ datetime ++ "\n" ++ cs ++ "\n" ++ hashed_canonical_request

/-- `internal::hs256`: HMAC-SHA256 keyed by raw bytes over a string's UTF-8
bytes, returning the raw 32-byte MAC. -/
def hs256 (key : List Nat) (data : String) : List Nat :=
  hmacSha256 key (strBytes data)

/-- `internal::signed_auth_header`. -/
def signed_auth_header (sign_key : List Nat) (aws_key sts cs : String) : String :=
  let signature := hexBytes (hmacSha256 sign_key (strBytes sts))
  ALGORITHM ++ " Credential=" ++ aws_key ++ "/" ++ cs ++ ", SignedHeaders=" ++
    SIGNED_HEADERS ++ ", Signature=" ++ signature

/-- `internal::derive_sign_key`: the four-step HMAC-SHA256 key ladder, each
intermediate MAC chained as raw bytes. -/
def derive_sign_key (conf : Configuration) (service date : String) : List Nat :=
  let k_date := hs256 (strBytes ("AWS4" ++ conf.secret)) date
  let k_region := hs256 k_date conf.region
  let k_service := hs256 k_region service
  hs256 k_service "aws4_request"

/-- Rust `datetime.split("T").next().unwrap()`: the prefix of the string
before the first `'T'` (the whole string when there is none); `split` always
yields a first segment, so the `unwrap` never panics. -/
def dateBeforeT (datetime : String) : String :=
  ⟨datetime.data.takeWhile (fun c => c ≠ 'T')⟩

/-- `create_signed_auth_header`; `none` exactly when
`build_canonical_request` panics (URI without host). -/
def create_signed_auth_header (method : String) (uri : Uri) (body : List Nat)
    (content_type datetime : String) (conf : Configuration) (service : String) :
    Option String :=
  let date := dateBeforeT datetime
  let derived_sign_key := derive_sign_key conf service date
  (build_canonical_request method uri datetime body content_type).map fun cr =>
    let cs := build_credential_scope date conf.region service
    let sts := create_string_to_sign cr datetime cs
    signed_auth_header derived_sign_key conf.key sts cs

/-- The slice of `http::Request` that `sign_prepared` touches: method, URI,
headers (name–value pairs, names already lower-cased as in the `http`
crate), body bytes. -/
structure Request where
  method : String
  uri : Uri
  headers : List (String × String)
  body : List Nat
deriving DecidableEq

/-- `HeaderMap::get`: first value under the name. -/
def getHeader (hs : List (String × String)) (name : String) : Option String :=
  (hs.find? (fun p => p.1 = name)).map Prod.snd

/-- `HeaderMap::insert`: replace any existing values under the name. -/
def insertHeader (hs : List (String × String)) (name v : String) :
    List (String × String) :=
  hs.filter (fun p => p.1 ≠ name) ++ [(name, v)]

/-- `sign_prepared`: reads `x-amz-date` and `content-type` (each `.unwrap()`
panics — `none` — when the header is absent), builds the authorization
header value, and inserts it; every other part of the request is returned
unchanged. -/
def sign_prepared (req : Request) (conf : Configuration) (service : String) :
    Option Request :=
  match getHeader req.headers AMZ_DATE with
  | none => none
  | some datetime =>
    match getHeader req.headers "content-type" with
    | none => none
    | some ct =>
      (create_signed_auth_header req.method req.uri req.body ct datetime conf service).map
        fun hv => { req with headers := insertHeader req.headers "authorization" hv }

/-! ### The official SigV4 test vector (`tests::test_sign_request`,
`internal::tests::test_derive_sign_key`) and its intermediate values. -/

def confGolden : Configuration :=
  ⟨"us-east-1", "AKIDEXAMPLE", "wJalrXUtnFEMI/K7MDENG+bPxRfiCYEXAMPLEKEY"⟩

def uriGolden : Uri :=
  ⟨some "iam.amazonaws.com", "/", some "Action=ListUsers&Version=2010-05-08"⟩

def ctGolden : String := "application/x-www-form-urlencoded; charset=utf-8"

def kDateGolden : List Nat :=
  [1, 56, 199, 166, 203, 214, 10, 167, 39, 178, 246, 83, 165, 34, 86, 116,
   57, 223, 185, 243, 231, 43, 33, 249, 178, 89, 65, 164, 47, 4, 167, 205]

def kRegionGolden : List Nat :=
  [243, 61, 88, 8, 80, 75, 243, 72, 18, 229, 250, 222, 99, 48, 139, 66,
   75, 36, 76, 89, 24, 155, 226, 165, 145, 221, 34, 130, 199, 203, 86, 63]

def kServiceGolden : List Nat :=
  [25, 158, 31, 72, 198, 2, 165, 174, 119, 206, 38, 164, 105, 6, 146, 14,
   118, 252, 132, 39, 174, 170, 83, 218, 100, 54, 70, 252, 218, 28, 207, 176]

def kSigningGolden : List Nat :=
  [196, 175, 177, 204, 87, 113, 216, 113, 118, 58, 57, 62, 68, 183, 3, 87,
   27, 85, 204, 40, 66, 77, 26, 94, 134, 218, 110, 211, 193, 84, 164, 185]

def crGolden : String :=
  "GET\n/\nAction=ListUsers&Version=2010-05-08\ncontent-type:application/x-www-form-urlencoded; charset=utf-8\nhost:iam.amazonaws.com\nx-amz-date:20150830T123600Z\n\ncontent-type;host;x-amz-date\ne3b0c44298fc1c149afbf4c8996fb92427ae41e4649b934ca495991b7852b855"

def csGolden : String := "20150830/us-east-1/iam/aws4_request"

def stsGolden : String :=
  "AWS4-HMAC-SHA256\n20150830T123600Z\n20150830/us-east-1/iam/aws4_request\nf536975d06c0309214f805bb90ccff089219ecd68b2577efef23edd43b7e1a59"

def authGolden : String :=
  "AWS4-HMAC-SHA256 Credential=AKIDEXAMPLE/20150830/us-east-1/iam/aws4_request, SignedHeaders=content-type;host;x-amz-date, Signature=5d672d79c15b13162d9279b0855cfba6789a8edb4c82c400e06b5924a6f2b5d7"

/-- The canonical request of a minimal host-only request with the malformed
timestamp `"bad"`. -/
def crBad : String :=
  "GET\n/\n=\ncontent-type:c\nhost:h\nx-amz-date:bad\n\ncontent-type;host;x-amz-date\ne3b0c44298fc1c149afbf4c8996fb92427ae41e4649b934ca495991b7852b855"

/-! ### Credential lookup (`src/configs.rs`) -/

/-- `Configuration::from_env`: reads `AWS_DEFAULT_REGION`,
`AWS_ACCESS_KEY_ID` and `AWS_SECRET_ACCESS_KEY`; a missing variable makes
`var(..)?` return early, modelled as `none`.  `env` models the process
environment. -/
def from_env (env : String → Option String) : Option Configuration :=
  match env "AWS_DEFAULT_REGION", env "AWS_ACCESS_KEY_ID",
      env "AWS_SECRET_ACCESS_KEY" with
  | some r, some k, some s => some ⟨r, k, s⟩
  | _, _, _ => none

/-- `Configuration::from_profile_env`: reads `AWS_PROFILE` and delegates to
the profile lookup.  `profile` abstracts `from_profile_static` — the
filesystem read — as the lookup outcome per profile name (its pure parsing
core is embedded separately as `from_profile_static` below). -/
def from_profile_env (env : String → Option String)
    (profile : String → Option Configuration) : Option Configuration :=
  (env "AWS_PROFILE").bind profile

/-- `Configuration::auto`: the `if let Ok(..) … else if let Ok(..) …`
chain — environment variables, then the `AWS_PROFILE` profile, then the
`default` profile, else failure. -/
def auto (env : String → Option String)
    (profile : String → Option Configuration) : Option Configuration :=
  match from_env env with
  | some c => some c
  | none =>
    match from_profile_env env profile with
    | some c => some c
    | none =>
      match profile "default" with
      | some c => some c
      | none => none

/-- The error cases of `from_profile_static`, in the order the Rust code
reports them. -/
inductive ProfileError where
  | profileNotFoundCreds
  | profileNotFoundConf
  | regionNotFound
  | keyNotFound
  | secretNotFound
deriving DecidableEq

/-- Rust `str::trim` on a character list (whitespace on both ends). -/
def trimChars (l : List Char) : List Char :=
  ((l.dropWhile Char.isWhitespace).reverse.dropWhile Char.isWhitespace).reverse

/-- Rust `str::lines`: split on `'\n'` with no trailing empty line. -/
def rustLines (s : String) : List (List Char) :=
  let segs := splitOnChar '\n' s.data
  if segs.getLast? = some [] then segs.dropLast else segs

/-- One body line of the credentials-file loop: split the line on `=`, trim
every part, and update the `(key, secret)` state only on an exact two-part
`[aws_access_key_id, v]` or `[aws_secret_access_key, v]` match. -/
def procCredLine (st : Option String × Option String) (line : List Char) :
    Option String × Option String :=
  match (splitOnChar '=' line).map trimChars with
  | [k, v] =>
    if k = "aws_access_key_id".data then (some ⟨v⟩, st.2)
    else if k = "aws_secret_access_key".data then (st.1, some ⟨v⟩)
    else st
  | _ => st

/-- One body line of the config-file loop: update the region only on an
exact two-part `[region, v]` match. -/
def procConfLine (st : Option String) (line : List Char) : Option String :=
  match (splitOnChar '=' line).map trimChars with
  | [k, v] => if k = "region".data then some ⟨v⟩ else st
  | _ => st

/-- The line loop shared by both halves of `from_profile_static`: scan the
lines, set the found flag at the profile's header line (and skip it), break
at the next `[`-header once found, and feed other lines to `proc` while the
flag is set. -/
def profileLoop {σ : Type} (pl : List Char) (proc : σ → List Char → σ) :
    List (List Char) → Bool → σ → Bool × σ
  | [], found, st => (found, st)
  | line :: rest, found, st =>
    if line.head? = some '[' then
      if found then (found, st)
      else if line = pl then profileLoop pl proc rest true st
      else profileLoop pl proc rest found st
    else
      profileLoop pl proc rest found (if found then proc st line else st)

/-- `Configuration::from_profile_static`, over the contents of the
credentials and config files (the filesystem read is outside the model):
scan the credentials file for `aws_access_key_id` and
`aws_secret_access_key` under `[profile]`, the config file for `region`
under `[default]` or `[profile name]`, and assemble the result, reporting
the first missing piece in the Rust code's `ok_or` order — region, then
key, then secret. -/
def from_profile_static (profile credRaw confRaw : String) :
    Except ProfileError Configuration :=
  let r := profileLoop ("[" ++ profile ++ "]").data procCredLine
    (rustLines credRaw) false (none, none)
  if r.1 = false then .error .profileNotFoundCreds
  else
    let pl2 := if profile = "default" then "[default]"
      else "[profile " ++ profile ++ "]"
    let r2 := profileLoop pl2.data procConfLine (rustLines confRaw) false none
    if r2.1 = false then .error .profileNotFoundConf
    else
      match r2.2, r.2.1, r.2.2 with
      | none, _, _ => .error .regionNotFound
      | some _, none, _ => .error .keyNotFound
      | some _, some _, none => .error .secretNotFound
      | some region, some key, some secret => .ok ⟨region, key, secret⟩

/-- A concrete environment with all three credential variables set. -/
def envW : String → Option String := fun s =>
  if s = "AWS_DEFAULT_REGION" then some "r"
  else if s = "AWS_ACCESS_KEY_ID" then some "k"
  else if s = "AWS_SECRET_ACCESS_KEY" then some "s" else none

/-- A concrete profile lookup resolving only the default profile. -/
def profileW : String → Option Configuration := fun p =>
  if p = "default" then some ⟨"pr", "pk", "ps"⟩ else none

/-! ### A small concrete prepared request and its signing intermediates,
used to witness the frame property of `sign_prepared`. -/

def reqW : Request :=
  ⟨"GET", ⟨some "h", "/", none⟩,
    [("host", "h"), ("content-type", "c"), ("x-amz-date", "0T1")], []⟩

def kDateW : List Nat :=
  [122, 120, 121, 117, 114, 80, 90, 250, 48, 239, 84, 226, 193, 79, 31, 175,
   84, 79, 99, 20, 61, 207, 180, 220, 164, 234, 173, 184, 147, 192, 65, 215]

def kRegionW : List Nat :=
  [244, 58, 84, 206, 168, 205, 143, 132, 32, 102, 89, 220, 184, 32, 187, 166,
   81, 150, 57, 139, 136, 24, 157, 224, 128, 34, 5, 249, 211, 189, 216, 12]

def kServiceW : List Nat :=
  [185, 163, 75, 13, 204, 233, 163, 173, 217, 237, 15, 232, 72, 227, 80, 144,
   166, 183, 20, 96, 157, 221, 218, 6, 236, 157, 79, 102, 184, 233, 128, 164]

def kSigningW : List Nat :=
  [245, 49, 206, 73, 243, 227, 37, 177, 233, 254, 76, 211, 76, 99, 114, 145,
   188, 128, 110, 251, 159, 173, 39, 15, 44, 159, 228, 120, 247, 211, 248, 252]

def crW : String :=
  "GET\n/\n=\ncontent-type:c\nhost:h\nx-amz-date:0T1\n\ncontent-type;host;x-amz-date\ne3b0c44298fc1c149afbf4c8996fb92427ae41e4649b934ca495991b7852b855"

def stsW : String :=
  "AWS4-HMAC-SHA256\n0T1\n0/r/svc/aws4_request\nf7e38872d878441334e21f5dcfcb668ac226bebb21d5c902592a08d22b0d416f"

def authW : String :=
  "AWS4-HMAC-SHA256 Credential=k/0/r/svc/aws4_request, SignedHeaders=content-type;host;x-amz-date, Signature=6be49a68ac432842c9bc9f5632997ce644c14699f02cd087754b25e5f6bc803a"

def reqW' : Request :=
  ⟨"GET", ⟨some "h", "/", none⟩,
    [("host", "h"), ("content-type", "c"), ("x-amz-date", "0T1"),
     ("authorization", authW)], []⟩

lemma derive_sign_key_golden :
    derive_sign_key confGolden "iam" "20150830" = kSigningGolden := by
  have h1 : hs256 (strBytes ("AWS4" ++ confGolden.secret)) "20150830" = kDateGolden := by
    decide
  have h2 : hs256 kDateGolden "us-east-1" = kRegionGolden := by decide
  have h3 : hs256 kRegionGolden "iam" = kServiceGolden := by decide
  have h4 : hs256 kServiceGolden "aws4_request" = kSigningGolden := by decide
  show hs256 (hs256 (hs256 (hs256 (strBytes ("AWS4" ++ confGolden.secret))
    "20150830") confGolden.region) "iam") "aws4_request" = kSigningGolden
  rw [h1, show confGolden.region = "us-east-1" from rfl, h2, h3, h4]

/-- C2: the key ladder chains raw 32-byte HMAC outputs —
`k_date = HMAC("AWS4" ++ secret, date)`, `k_region = HMAC(k_date, region)`,
`k_service = HMAC(k_region, service)`, `k_signing = HMAC(k_service,
"aws4_request")`, never hex-encoded between steps — and for the golden
secret/region/service/date the derived `k_signing` hex-encodes to
`c4afb1cc5771d871763a393e44b703571b55cc28424d1a5e86da6ed3c154a4b9`. -/
theorem c2_key_ladder :
    (∀ (conf : Configuration) (service date : String),
      derive_sign_key conf service date =
        hmacSha256 (hmacSha256 (hmacSha256 (hmacSha256
          (strBytes ("AWS4" ++ conf.secret)) (strBytes date))
          (strBytes conf.region)) (strBytes service)) (strBytes "aws4_request")) ∧
    hexBytes (derive_sign_key
      ⟨"us-east-1", "AKIDEXAMPLE", "wJalrXUtnFEMI/K7MDENG+bPxRfiCYEXAMPLEKEY"⟩
      "iam" "20150830") =
      "c4afb1cc5771d871763a393e44b703571b55cc28424d1a5e86da6ed3c154a4b9" := by
  constructor
  · intro conf service date
    rfl
  · rw [show (⟨"us-east-1", "AKIDEXAMPLE",
        "wJalrXUtnFEMI/K7MDENG+bPxRfiCYEXAMPLEKEY"⟩ : Configuration) = confGolden
        from rfl,
      derive_sign_key_golden]
    decide

/-- C1: on the official end-to-end test vector (GET
`https://iam.amazonaws.com/?Action=ListUsers&Version=2010-05-08`, the three
prepared headers, empty body, the example credentials, region `us-east-1`,
service `iam`), the signer produces exactly the expected `Authorization`
header string. -/
theorem c1_end_to_end :
    create_signed_auth_header "GET" uriGolden [] ctGolden "20150830T123600Z"
      confGolden "iam" = some authGolden := by
  have hdt : dateBeforeT "20150830T123600Z" = "20150830" := by decide
  have hcr : build_canonical_request "GET" uriGolden "20150830T123600Z" [] ctGolden =
      some crGolden := by decide
  have hsts : create_string_to_sign crGolden "20150830T123600Z" csGolden = stsGolden := by
    decide
  have hsig : signed_auth_header kSigningGolden "AKIDEXAMPLE" stsGolden csGolden =
      authGolden := by decide
  show (build_canonical_request "GET" uriGolden "20150830T123600Z" [] ctGolden).map
      (fun cr =>
        signed_auth_header
          (derive_sign_key confGolden "iam" (dateBeforeT "20150830T123600Z"))
          confGolden.key
          (create_string_to_sign cr "20150830T123600Z"
            (build_credential_scope (dateBeforeT "20150830T123600Z")
              confGolden.region "iam"))
          (build_credential_scope (dateBeforeT "20150830T123600Z")
            confGolden.region "iam")) = some authGolden
  rw [hcr, hdt]
  show some (signed_auth_header (derive_sign_key confGolden "iam" "20150830")
      confGolden.key
      (create_string_to_sign crGolden "20150830T123600Z"
        (build_credential_scope "20150830" confGolden.region "iam"))
      (build_credential_scope "20150830" confGolden.region "iam")) = some authGolden
  rw [derive_sign_key_golden,
    show confGolden.key = "AKIDEXAMPLE" from rfl,
    show confGolden.region = "us-east-1" from rfl,
    show build_credential_scope "20150830" "us-east-1" "iam" = csGolden from rfl,
    hsts, hsig]

lemma splitOnChar_cons (c x : Char) (xs : List Char) :
    splitOnChar c (x :: xs) =
      if x = c then [] :: splitOnChar c xs
      else
        match splitOnChar c xs with
        | [] => [[x]]
        | s :: r => (x :: s) :: r := rfl

lemma restSegs_eq (c : Char) (l : List Char) :
    restSegs c l =
      match l.dropWhile (fun a => a ≠ c) with
      | [] => []
      | _ :: rest => splitOnChar c rest := rfl

lemma splitOnChar_eq (c : Char) :
    ∀ l : List Char,
      splitOnChar c l = l.takeWhile (fun a => a ≠ c) :: restSegs c l := by
  intro l
  induction l with
  | nil => rfl
  | cons x xs ih =>
    by_cases hx : x = c
    · subst hx
      have h2 : List.takeWhile (fun a => decide (a ≠ x)) (x :: xs) = [] := by
        simp [List.takeWhile_cons]
      have h3 : restSegs x (x :: xs) = splitOnChar x xs := by
        rw [restSegs_eq, List.dropWhile_cons]
        simp
      rw [splitOnChar_cons, if_pos rfl, h2, h3]
    · have h2 : List.takeWhile (fun a => decide (a ≠ c)) (x :: xs) =
          x :: List.takeWhile (fun a => decide (a ≠ c)) xs := by
        simp [List.takeWhile_cons, hx]
      have h3 : restSegs c (x :: xs) = restSegs c xs := by
        rw [restSegs_eq, List.dropWhile_cons]
        simp [hx, restSegs_eq]
      simp only [splitOnChar_cons, if_neg hx, ih, h2, h3]

lemma parsePair_eq (p : List Char) :
    parsePair p = (p.takeWhile (fun a => a ≠ '='),
      ((p.dropWhile (fun a => a ≠ '=')).drop 1).takeWhile (fun a => a ≠ '=')) := by
  unfold parsePair
  rw [splitOnChar_eq]
  cases hd : p.dropWhile (fun a => a ≠ '=') with
  | nil =>
    have h1 : restSegs '=' p = [] := by rw [restSegs_eq, hd]
    rw [h1]
    rfl
  | cons y rest =>
    have h1 : restSegs '=' p =
        List.takeWhile (fun a => decide (a ≠ '=')) rest :: restSegs '=' rest := by
      rw [restSegs_eq, hd]
      exact splitOnChar_eq '=' rest
    rw [h1]
    rfl

/-- C3 counterexample: for the query `a=b=c` the code keeps only the segment
between the first and second `=` as the value (yielding `a=b`), while the
claim's reading — the value is everything after the first `=` — would yield
`a=b=c`. -/
theorem c3_counterexample :
    canonicalQueryString (some "a=b=c") = "a=b" ∧
    canonicalQueryStringClaim (some "a=b=c") = "a=b=c" ∧
    canonicalQueryString (some "a=b=c") ≠ canonicalQueryStringClaim (some "a=b=c") := by
  decide

/-- C3 (amended): the canonical query string splits the raw query on `&`,
takes each fragment's key as the text before the first `=` and its value as
the text between the first and second `=` (no `=` gives an empty value, and
text from the second `=` on is dropped), sorts the pairs lexicographically
by the full (key, value) tuple, and rejoins with `&` as `key=value`. -/
theorem c3_amended_canonical_query (q : Option String) :
    canonicalQueryString q = canonicalQueryStringAmended q := by
  unfold canonicalQueryString canonicalQueryStringAmended
  have hp : parsePair = fun p : List Char =>
      (p.takeWhile (fun a => a ≠ '='),
       ((p.dropWhile (fun a => a ≠ '=')).drop 1).takeWhile (fun a => a ≠ '=')) :=
    funext parsePair_eq
  rw [hp]

/-- C5 counterexample: the signing path panics rather than returning a
typed error — `sign_prepared` unwraps the `x-amz-date` header, so on a
request without it (host and content-type present) the call panics,
modelled by the `none` result. -/
theorem c5_counterexample :
    sign_prepared
      ⟨"GET", ⟨some "h", "/", none⟩, [("host", "h"), ("content-type", "c")], []⟩
      ⟨"r", "k", "s"⟩ "iam" = none := by
  rfl

/-- C5 (amended): the signing path returns no typed result and panics
(`unwrap`) when the request lacks the `x-amz-date` or `content-type` header
or its URI has no host; on requests carrying all three, `sign_prepared` and
the canonical-request construction complete without panicking. -/
theorem c5_amended_no_panic_when_prepared (req : Request) (conf : Configuration)
    (service dt ct h : String)
    (h1 : getHeader req.headers AMZ_DATE = some dt)
    (h2 : getHeader req.headers "content-type" = some ct)
    (h3 : req.uri.host = some h) :
    (sign_prepared req conf service).isSome = true := by
  unfold sign_prepared
  rw [h1, h2]
  unfold create_signed_auth_header build_canonical_request
  rw [h3]
  rfl

/-- C5 witness: the amended theorem applied to a concrete prepared
request. -/
theorem c5_witness :
    (sign_prepared
      ⟨"GET", ⟨some "h", "/", none⟩,
        [("host", "h"), ("content-type", "c"), ("x-amz-date", "0T1")], []⟩
      ⟨"r", "k", "s"⟩ "iam").isSome = true :=
  c5_amended_no_panic_when_prepared _ _ _ "0T1" "c" "h" (by decide) (by decide) rfl

/-- C7 counterexample: for the timestamp `"bad"` — which has no `'T'` and
no 8-character date prefix — signing succeeds (no `InvalidTimestamp` error
exists anywhere in the code) and the date fed to the scope and ladder is
the whole string `"bad"`. -/
theorem c7_counterexample :
    (create_signed_auth_header "GET" ⟨some "h", "/", none⟩ [] "c" "bad"
      ⟨"r", "k", "s"⟩ "svc").isSome = true ∧ dateBeforeT "bad" = "bad" := by
  exact ⟨rfl, by decide⟩

/-- C7 (amended): signing never fails on the timestamp — the `split("T")`
iterator always yields a first segment, so whenever the canonical request
is built (host present) the signer returns a header whose credential scope
and key ladder use the prefix of `amz_date` before the first `'T'`, with no
validation of its length. -/
theorem c7_amended_date_prefix (m : String) (u : Uri) (b : List Nat)
    (ct dt : String) (conf : Configuration) (svc : String) (cr : String)
    (hcr : build_canonical_request m u dt b ct = some cr) :
    create_signed_auth_header m u b ct dt conf svc =
      some (signed_auth_header (derive_sign_key conf svc (dateBeforeT dt)) conf.key
        (create_string_to_sign cr dt
          (build_credential_scope (dateBeforeT dt) conf.region svc))
        (build_credential_scope (dateBeforeT dt) conf.region svc)) := by
  unfold create_signed_auth_header
  rw [hcr]
  rfl

/-- C7 witness: the amended theorem applied to the concrete malformed
timestamp `"bad"`. -/
theorem c7_witness :
    create_signed_auth_header "GET" ⟨some "h", "/", none⟩ [] "c" "bad"
      ⟨"r", "k", "s"⟩ "svc" =
      some (signed_auth_header
        (derive_sign_key ⟨"r", "k", "s"⟩ "svc" (dateBeforeT "bad")) "k"
        (create_string_to_sign crBad "bad"
          (build_credential_scope (dateBeforeT "bad") "r" "svc"))
        (build_credential_scope (dateBeforeT "bad") "r" "svc")) :=
  c7_amended_date_prefix "GET" ⟨some "h", "/", none⟩ [] "c" "bad"
    ⟨"r", "k", "s"⟩ "svc" crBad (by decide)

/-- C4: a request whose URI has no query string does not get an empty
canonical query string — splitting the empty raw query yields the single
pair `("", "")`, so the canonical query string component is `"="`, as the
evaluation of a whole canonical request shows. -/
theorem c4_no_query_yields_equals_sign :
    canonicalQueryString none = "=" ∧
    build_canonical_request "GET" ⟨some "h", "/", none⟩ "20150830T123600Z" [] "ct" =
      some "GET\n/\n=\ncontent-type:ct\nhost:h\nx-amz-date:20150830T123600Z\n\ncontent-type;host;x-amz-date\ne3b0c44298fc1c149afbf4c8996fb92427ae41e4649b934ca495991b7852b855" := by
  decide

lemma create_signed_eq (m : String) (u : Uri) (b : List Nat)
    (ct dt : String) (conf : Configuration) (svc cr : String)
    (hcr : build_canonical_request m u dt b ct = some cr) :
    create_signed_auth_header m u b ct dt conf svc =
      some (signed_auth_header (derive_sign_key conf svc (dateBeforeT dt)) conf.key
        (create_string_to_sign cr dt
          (build_credential_scope (dateBeforeT dt) conf.region svc))
        (build_credential_scope (dateBeforeT dt) conf.region svc)) := by
  unfold create_signed_auth_header
  rw [hcr]
  rfl

lemma sign_prepared_bind (req : Request) (conf : Configuration) (service : String) :
    sign_prepared req conf service =
      (getHeader req.headers AMZ_DATE).bind fun dt =>
      (getHeader req.headers "content-type").bind fun ct =>
      (create_signed_auth_header req.method req.uri req.body ct dt conf service).map
        fun hv => { req with headers := insertHeader req.headers "authorization" hv } := by
  unfold sign_prepared
  cases getHeader req.headers AMZ_DATE with
  | none => rfl
  | some dt =>
    cases getHeader req.headers "content-type" with
    | none => rfl
    | some ct => rfl

lemma find?_insertHeader (m v n : String) (hne : n ≠ m) :
    ∀ hs : List (String × String),
      (hs.filter (fun p => p.1 ≠ m) ++ [(m, v)]).find? (fun p => p.1 = n) =
        hs.find? (fun p => p.1 = n) := by
  intro hs
  induction hs with
  | nil =>
    simp only [List.filter_nil, List.nil_append]
    rw [List.find?_cons_of_neg _
        (by simp only [decide_eq_true_eq]; exact fun h => hne h.symm),
      List.find?_nil]
  | cons p t ih =>
    by_cases hp : p.1 = n
    · have hpm : ¬p.1 = m := fun h => hne (hp ▸ h ▸ rfl)
      rw [List.filter_cons_of_pos (by simp [hpm]), List.cons_append,
        List.find?_cons_of_pos _ (by simp [hp]),
        List.find?_cons_of_pos _ (by simp [hp])]
    · by_cases hpm : p.1 = m
      · rw [List.filter_cons_of_neg (by simp [hpm]),
          List.find?_cons_of_neg _ (by simp [hp])]
        exact ih
      · rw [List.filter_cons_of_pos (by simp [hpm]), List.cons_append,
          List.find?_cons_of_neg _ (by simp [hp]),
          List.find?_cons_of_neg _ (by simp [hp])]
        exact ih

lemma getHeader_insertHeader_ne (m v n : String) (hne : n ≠ m)
    (hs : List (String × String)) :
    getHeader (insertHeader hs m v) n = getHeader hs n := by
  unfold getHeader insertHeader
  rw [find?_insertHeader m v n hne hs]

lemma derive_sign_key_small :
    derive_sign_key ⟨"r", "k", "s"⟩ "svc" "0" = kSigningW := by
  have h1 : hs256 (strBytes ("AWS4" ++ "s")) "0" = kDateW := by decide
  have h2 : hs256 kDateW "r" = kRegionW := by decide
  have h3 : hs256 kRegionW "svc" = kServiceW := by decide
  have h4 : hs256 kServiceW "aws4_request" = kSigningW := by decide
  show hs256 (hs256 (hs256 (hs256 (strBytes ("AWS4" ++ "s")) "0") "r") "svc")
      "aws4_request" = kSigningW
  rw [h1, h2, h3, h4]

lemma sign_prepared_small :
    sign_prepared reqW ⟨"r", "k", "s"⟩ "svc" = some reqW' := by
  rw [sign_prepared_bind]
  rw [show getHeader reqW.headers AMZ_DATE = some "0T1" from by decide,
    Option.some_bind]
  rw [show getHeader reqW.headers "content-type" = some "c" from by decide,
    Option.some_bind]
  rw [show reqW.method = "GET" from rfl, show reqW.uri = ⟨some "h", "/", none⟩ from rfl,
    show reqW.body = ([] : List Nat) from rfl]
  rw [create_signed_eq "GET" ⟨some "h", "/", none⟩ [] "c" "0T1" ⟨"r", "k", "s"⟩
    "svc" crW (by decide)]
  rw [show dateBeforeT "0T1" = "0" from by decide]
  rw [show (⟨"r", "k", "s"⟩ : Configuration).region = "r" from rfl,
    show (⟨"r", "k", "s"⟩ : Configuration).key = "k" from rfl]
  rw [derive_sign_key_small]
  rw [show create_string_to_sign crW "0T1" (build_credential_scope "0" "r" "svc") =
    stsW from by decide]
  rw [show signed_auth_header kSigningW "k" stsW
    (build_credential_scope "0" "r" "svc") = authW from by decide]
  rw [Option.map_some']
  decide

/-- C8: `sign_prepared` only writes the `authorization` header — the
request's method, URI, body, and the value of every other header name are
unchanged in the signed request. -/
theorem c8_frame (req : Request) (conf : Configuration) (service : String)
    (req' : Request) (n : String)
    (hsp : sign_prepared req conf service = some req')
    (hn : n ≠ "authorization") :
    req'.method = req.method ∧ req'.uri = req.uri ∧ req'.body = req.body ∧
    getHeader req'.headers n = getHeader req.headers n := by
  rw [sign_prepared_bind] at hsp
  cases h1 : getHeader req.headers AMZ_DATE with
  | none => rw [h1] at hsp; simp at hsp
  | some dt =>
    rw [h1, Option.some_bind] at hsp
    cases h2 : getHeader req.headers "content-type" with
    | none => rw [h2] at hsp; simp at hsp
    | some ct =>
      rw [h2, Option.some_bind] at hsp
      cases h3 : create_signed_auth_header req.method req.uri req.body ct dt
          conf service with
      | none => rw [h3] at hsp; simp at hsp
      | some hv =>
        rw [h3, Option.map_some'] at hsp
        injection hsp with h
        subst h
        exact ⟨rfl, rfl, rfl, getHeader_insertHeader_ne "authorization" hv n hn
          req.headers⟩

/-- C8 witness: the frame theorem applied to a concrete prepared request
and the header name `host`. -/
theorem c8_witness :
    reqW'.method = reqW.method ∧ reqW'.uri = reqW.uri ∧ reqW'.body = reqW.body ∧
    getHeader reqW'.headers "host" = getHeader reqW.headers "host" :=
  c8_frame reqW ⟨"r", "k", "s"⟩ "svc" reqW' "host" sign_prepared_small (by decide)

lemma charsLE_nil (l : List Char) : charsLE [] l = true := by cases l <;> rfl

lemma charsLE_cons (a b : Char) (as bs : List Char) :
    charsLE (a :: as) (b :: bs) =
      if a < b then true else if b < a then false else charsLE as bs := rfl

lemma charsLE_total : ∀ a b : List Char, charsLE a b = true ∨ charsLE b a = true := by
  intro a
  induction a with
  | nil => intro b; exact Or.inl (charsLE_nil b)
  | cons x xs ih =>
    intro b
    cases b with
    | nil => exact Or.inr (charsLE_nil _)
    | cons y ys =>
      rcases lt_trichotomy x y with h | h | h
      · left; rw [charsLE_cons, if_pos h]
      · subst h
        rcases ih ys with h2 | h2
        · left; rw [charsLE_cons, if_neg (lt_irrefl x), if_neg (lt_irrefl x)]
          exact h2
        · right; rw [charsLE_cons, if_neg (lt_irrefl x), if_neg (lt_irrefl x)]
          exact h2
      · right; rw [charsLE_cons, if_pos h]

lemma charsLE_trans : ∀ a b c : List Char,
    charsLE a b = true → charsLE b c = true → charsLE a c = true := by
  intro a
  induction a with
  | nil => intro b c _ _; exact charsLE_nil c
  | cons x xs ih =>
    intro b c hab hbc
    cases b with
    | nil =>
      rw [show charsLE (x :: xs) [] = false from rfl] at hab
      exact absurd hab (by simp)
    | cons y ys =>
      cases c with
      | nil =>
        rw [show charsLE (y :: ys) [] = false from rfl] at hbc
        exact absurd hbc (by simp)
      | cons z zs =>
        rw [charsLE_cons] at hab hbc ⊢
        rcases lt_trichotomy x y with hxy | hxy | hxy
        · rcases lt_trichotomy y z with hyz | hyz | hyz
          · rw [if_pos (lt_trans hxy hyz)]
          · subst hyz; rw [if_pos hxy]
          · rw [if_pos hyz, if_neg (not_lt.mpr (le_of_lt hyz))] at hbc
            exact absurd hbc (by simp)
        · subst hxy
          rw [if_neg (lt_irrefl x), if_neg (lt_irrefl x)] at hab
          rcases lt_trichotomy x z with hxz | hxz | hxz
          · rw [if_pos hxz]
          · subst hxz
            rw [if_neg (lt_irrefl x), if_neg (lt_irrefl x)] at hbc ⊢
            exact ih ys zs hab hbc
          · rw [if_neg (not_lt.mpr (le_of_lt hxz)), if_pos hxz] at hbc
            exact absurd hbc (by simp)
        · rw [if_neg (not_lt.mpr (le_of_lt hxy)), if_pos hxy] at hab
          exact absurd hab (by simp)

lemma charsLE_antisymm : ∀ a b : List Char,
    charsLE a b = true → charsLE b a = true → a = b := by
  intro a
  induction a with
  | nil =>
    intro b _ hba
    cases b with
    | nil => rfl
    | cons y ys =>
      rw [show charsLE (y :: ys) [] = false from rfl] at hba
      exact absurd hba (by simp)
  | cons x xs ih =>
    intro b hab hba
    cases b with
    | nil =>
      rw [show charsLE (x :: xs) [] = false from rfl] at hab
      exact absurd hab (by simp)
    | cons y ys =>
      rw [charsLE_cons] at hab hba
      rcases lt_trichotomy x y with hxy | hxy | hxy
      · rw [if_neg (not_lt.mpr (le_of_lt hxy)), if_pos hxy] at hba
        exact absurd hba (by simp)
      · subst hxy
        rw [if_neg (lt_irrefl x), if_neg (lt_irrefl x)] at hab hba
        rw [ih ys hab hba]
      · rw [if_neg (not_lt.mpr (le_of_lt hxy)), if_pos hxy] at hab
        exact absurd hab (by simp)

lemma pairLE_total (p q : List Char × List Char) :
    pairLE p q = true ∨ pairLE q p = true := by
  unfold pairLE
  by_cases h : p.1 = q.1
  · rw [if_pos h, if_pos h.symm]; exact charsLE_total p.2 q.2
  · rw [if_neg h, if_neg (fun hh => h hh.symm)]; exact charsLE_total p.1 q.1

lemma pairLE_trans (p q r : List Char × List Char)
    (h1 : pairLE p q = true) (h2 : pairLE q r = true) : pairLE p r = true := by
  unfold pairLE at h1 h2 ⊢
  by_cases hpq : p.1 = q.1 <;> by_cases hqr : q.1 = r.1
  · rw [if_pos hpq] at h1
    rw [if_pos hqr] at h2
    rw [if_pos (hpq.trans hqr)]
    exact charsLE_trans _ _ _ h1 h2
  · rw [if_pos hpq] at h1
    rw [if_neg hqr] at h2
    rw [if_neg (fun h => hqr (hpq ▸ h)), hpq]
    exact h2
  · rw [if_neg hpq] at h1
    rw [if_pos hqr] at h2
    rw [if_neg (fun h => hpq (h.trans hqr.symm)), ← hqr]
    exact h1
  · rw [if_neg hpq] at h1
    rw [if_neg hqr] at h2
    by_cases hpr : p.1 = r.1
    · exact absurd (charsLE_antisymm _ _ h1 (hpr ▸ h2)) hpq
    · rw [if_neg hpr]
      exact charsLE_trans _ _ _ h1 h2

lemma pairLE_antisymm (p q : List Char × List Char)
    (h1 : pairLE p q = true) (h2 : pairLE q p = true) : p = q := by
  unfold pairLE at h1 h2
  by_cases h : p.1 = q.1
  · rw [if_pos h] at h1
    rw [if_pos h.symm] at h2
    have h2' := charsLE_antisymm _ _ h1 h2
    cases p; cases q
    simp only at h h2'
    rw [h, h2']
  · rw [if_neg h] at h1
    rw [if_neg (fun hh => h hh.symm)] at h2
    exact absurd (charsLE_antisymm _ _ h1 h2) h

instance : IsTotal (List Char × List Char) pairRel := ⟨pairLE_total⟩

instance : IsTrans (List Char × List Char) pairRel :=
  ⟨fun p q r => pairLE_trans p q r⟩

instance : IsAntisymm (List Char × List Char) pairRel :=
  ⟨fun p q => pairLE_antisymm p q⟩

lemma insertionSort_eq_of_perm {l₁ l₂ : List (List Char × List Char)}
    (h : l₁.Perm l₂) :
    List.insertionSort pairRel l₁ = List.insertionSort pairRel l₂ :=
  List.eq_of_perm_of_sorted
    (((List.perm_insertionSort pairRel l₁).trans h).trans
      (List.perm_insertionSort pairRel l₂).symm)
    (List.sorted_insertionSort pairRel l₁)
    (List.sorted_insertionSort pairRel l₂)

lemma splitOnChar_ne_nil (c : Char) : ∀ l : List Char, splitOnChar c l ≠ [] := by
  intro l
  cases l with
  | nil => simp [splitOnChar]
  | cons x xs =>
    rw [splitOnChar_cons]
    by_cases hx : x = c
    · rw [if_pos hx]; simp
    · rw [if_neg hx]
      cases h : splitOnChar c xs with
      | nil => simp
      | cons s r => simp

lemma splitOnChar_append_cons (c : Char) :
    ∀ a b : List Char,
      splitOnChar c (a ++ c :: b) = splitOnChar c a ++ splitOnChar c b := by
  intro a b
  induction a with
  | nil =>
    rw [List.nil_append, splitOnChar_cons, if_pos rfl]
    rfl
  | cons x xs ih =>
    by_cases hx : x = c
    · rw [List.cons_append, splitOnChar_cons, if_pos hx, ih,
        splitOnChar_cons, if_pos hx, List.cons_append]
    · rw [List.cons_append, splitOnChar_cons, if_neg hx, ih,
        splitOnChar_cons, if_neg hx]
      cases h : splitOnChar c xs with
      | nil => exact absurd h (splitOnChar_ne_nil c xs)
      | cons s r => rfl

lemma splitOnChar_joinAmp :
    ∀ (x : List Char) (xs : List (List Char)),
      splitOnChar '&' (joinAmp (x :: xs)) =
        ((x :: xs).map (splitOnChar '&')).flatten := by
  intro x xs
  induction xs generalizing x with
  | nil => simp [joinAmp]
  | cons y ys ih =>
    rw [show joinAmp (x :: y :: ys) = x ++ '&' :: joinAmp (y :: ys) from rfl,
      splitOnChar_append_cons, ih y]
    simp [List.map_cons, List.flatten_cons]

lemma canonicalQueryString_perm (l l' : List (String × String)) (h : l.Perm l') :
    canonicalQueryString (some (joinQueryPairs l)) =
      canonicalQueryString (some (joinQueryPairs l')) := by
  cases l with
  | nil =>
    have hl' : l' = [] := List.Perm.eq_nil h.symm
    subst hl'
    rfl
  | cons a t =>
    cases l' with
    | nil => exact absurd (List.Perm.eq_nil h) (by simp)
    | cons b t' =>
      have hs₁ : splitOnChar '&' (joinQueryPairs (a :: t)).data =
          (((a :: t).map seg).map (splitOnChar '&')).flatten := by
        show splitOnChar '&' (joinAmp ((a :: t).map seg)) = _
        rw [List.map_cons]
        exact splitOnChar_joinAmp (seg a) (t.map seg)
      have hs₂ : splitOnChar '&' (joinQueryPairs (b :: t')).data =
          (((b :: t').map seg).map (splitOnChar '&')).flatten := by
        show splitOnChar '&' (joinAmp ((b :: t').map seg)) = _
        rw [List.map_cons]
        exact splitOnChar_joinAmp (seg b) (t'.map seg)
      have hperm :
          ((((a :: t).map seg).map (splitOnChar '&')).flatten.map parsePair).Perm
            ((((b :: t').map seg).map (splitOnChar '&')).flatten.map parsePair) :=
        (((h.map seg).map (splitOnChar '&')).flatten).map parsePair
      have key : List.insertionSort pairRel
            ((splitOnChar '&' (joinQueryPairs (a :: t)).data).map parsePair) =
          List.insertionSort pairRel
            ((splitOnChar '&' (joinQueryPairs (b :: t')).data).map parsePair) := by
        rw [hs₁, hs₂]
        exact insertionSort_eq_of_perm hperm
      show (⟨joinAmp ((List.insertionSort pairRel
          ((splitOnChar '&' (joinQueryPairs (a :: t)).data).map parsePair)).map
            (fun kv => kv.1 ++ '=' :: kv.2))⟩ : String) =
        ⟨joinAmp ((List.insertionSort pairRel
          ((splitOnChar '&' (joinQueryPairs (b :: t')).data).map parsePair)).map
            (fun kv => kv.1 ++ '=' :: kv.2))⟩
      rw [key]

lemma build_canonical_request_query_congr (m : String) (host : Option String)
    (path : String) (q q' : Option String) (dt : String) (b : List Nat)
    (ct : String) (hq : canonicalQueryString q = canonicalQueryString q') :
    build_canonical_request m ⟨host, path, q⟩ dt b ct =
      build_canonical_request m ⟨host, path, q'⟩ dt b ct := by
  cases host with
  | none => rfl
  | some hst =>
    show some (m ++ "\n" ++ path ++ "\n" ++ canonicalQueryString q ++ "\n" ++
        ("content-type:" ++ ct ++ "\nhost:" ++ hst ++ "\nx-amz-date:" ++ dt ++ "\n") ++
        "\n" ++ SIGNED_HEADERS ++ "\n" ++ hexBytes (sha256 b)) =
      some (m ++ "\n" ++ path ++ "\n" ++ canonicalQueryString q' ++ "\n" ++
        ("content-type:" ++ ct ++ "\nhost:" ++ hst ++ "\nx-amz-date:" ++ dt ++ "\n") ++
        "\n" ++ SIGNED_HEADERS ++ "\n" ++ hexBytes (sha256 b))
    rw [hq]

lemma create_signed_query_congr (m : String) (host : Option String) (path : String)
    (q q' : Option String) (b : List Nat) (ct dt : String) (conf : Configuration)
    (svc : String) (hq : canonicalQueryString q = canonicalQueryString q') :
    create_signed_auth_header m ⟨host, path, q⟩ b ct dt conf svc =
      create_signed_auth_header m ⟨host, path, q'⟩ b ct dt conf svc := by
  unfold create_signed_auth_header
  rw [build_canonical_request_query_congr m host path q q' dt b ct hq]

/-- C6: signing is order-independent in the input query pairs — for every
request built from an ordered sequence of query pairs and every permutation
of that sequence, the produced `Authorization` header is the same, because
canonicalization sorts the parsed pairs. -/
theorem c6_query_order_independent (m : String) (host path : String)
    (b : List Nat) (ct dt : String) (conf : Configuration) (svc : String)
    (l l' : List (String × String)) (h : l.Perm l') :
    create_signed_auth_header m ⟨some host, path, some (joinQueryPairs l)⟩
        b ct dt conf svc =
      create_signed_auth_header m ⟨some host, path, some (joinQueryPairs l')⟩
        b ct dt conf svc :=
  create_signed_query_congr m (some host) path _ _ b ct dt conf svc
    (canonicalQueryString_perm l l' h)

/-- C6 witness: the order-independence theorem applied to the concrete
pair lists `[(b,2), (a,1)]` and `[(a,1), (b,2)]`. -/
theorem c6_witness :
    create_signed_auth_header "GET"
        ⟨some "h", "/", some (joinQueryPairs [("b", "2"), ("a", "1")])⟩ [] "c"
        "0T1" ⟨"r", "k", "s"⟩ "svc" =
      create_signed_auth_header "GET"
        ⟨some "h", "/", some (joinQueryPairs [("a", "1"), ("b", "2")])⟩ [] "c"
        "0T1" ⟨"r", "k", "s"⟩ "svc" :=
  c6_query_order_independent "GET" "h" "/" [] "c" "0T1" ⟨"r", "k", "s"⟩ "svc"
    [("b", "2"), ("a", "1")] [("a", "1"), ("b", "2")] (by decide)

/-- C9: automatic credential lookup tries its sources in the fixed order
environment variables, `AWS_PROFILE` profile, default profile: the
environment wins whenever it resolves, the default profile is used when
neither the environment nor the `AWS_PROFILE` lookup resolves, and lookup
fails exactly when all three sources fail. -/
theorem c9_credential_precedence (env : String → Option String)
    (profile : String → Option Configuration) :
    (∀ c, from_env env = some c → auto env profile = some c) ∧
    (from_env env = none → ∀ c, from_profile_env env profile = some c →
      auto env profile = some c) ∧
    (from_env env = none → from_profile_env env profile = none →
      auto env profile = profile "default") ∧
    (auto env profile = none ↔
      from_env env = none ∧ from_profile_env env profile = none ∧
        profile "default" = none) := by
  unfold auto
  cases h1 : from_env env <;> cases h2 : from_profile_env env profile <;>
    cases h3 : profile "default" <;> simp [h1, h2, h3]

/-- C9 witness: the precedence theorem's environment-wins clause applied to
a concrete environment and profile lookup. -/
theorem c9_witness : auto envW profileW = some ⟨"r", "k", "s"⟩ :=
  (c9_credential_precedence envW profileW).1 ⟨"r", "k", "s"⟩ (by decide)

lemma procCredLine_of_length_ne_two (st : Option String × Option String)
    (line : List Char) (h : (splitOnChar '=' line).length ≠ 2) :
    procCredLine st line = st := by
  unfold procCredLine
  cases hs : (splitOnChar '=' line).map trimChars with
  | nil => rfl
  | cons a t =>
    cases t with
    | nil => rfl
    | cons b t2 =>
      cases t2 with
      | nil =>
        exfalso
        apply h
        have := congrArg List.length hs
        simpa using this
      | cons d t3 => rfl

/-- C10: a `key = value` line is recognized only when splitting the line on
`=` yields exactly two trimmed parts, so any credentials line whose value
itself contains `=` (three or more segments) never sets its field — and a
concrete profile carrying `aws_secret_access_key = ab=cd` fails with the
`aws_secret_access_key not found for profile` error even though the line is
present. -/
theorem c10_value_with_equals_sign :
    (∀ (st : Option String × Option String) (pre mid post : List Char),
      procCredLine st (pre ++ '=' :: (mid ++ '=' :: post)) = st) ∧
    from_profile_static "default"
      "[default]\naws_access_key_id = AKID\naws_secret_access_key = ab=cd"
      "[default]\nregion = us-east-1" =
      Except.error ProfileError.secretNotFound := by
  constructor
  · intro st pre mid post
    apply procCredLine_of_length_ne_two
    rw [splitOnChar_append_cons, splitOnChar_append_cons]
    have l1 := List.length_pos.mpr (splitOnChar_ne_nil '=' pre)
    have l2 := List.length_pos.mpr (splitOnChar_ne_nil '=' mid)
    have l3 := List.length_pos.mpr (splitOnChar_ne_nil '=' post)
    simp only [List.length_append]
    omega
  · rfl

end Awsbs
